import Mathlib

/-!
The lenses, bindings and build mapper of rapidcheck `gen/Build.hpp`.

A shallow embedding of `src/include/rapidcheck/gen/Build.hpp`.

Modelling conventions.

* An object of a C++ class is the record of its non-static data members: a
  dependent function from member names `F` to values, `Obj Ty`, with
  `Ty f` the declared type of member `f`.  Values have value semantics, so
  `std::move` of a value is the value, and `Decay<T>` is `T`.
* A member function `Ret (Type::*)(Args...)` is a function from the receiver
  and the arguments to the returned value and the receiver afterwards.
* A `std::unique_ptr<T>` / `std::shared_ptr<T>` is modelled by the object it
  owns, `none` being the empty pointer (`Holder`), and, where the identity of
  the pointer matters, by the address of that object on a free store
  (`Handle`, `Store`); `callOnStore_view` relates the two.  Dereferencing an
  empty pointer is undefined behaviour, modelled as `none` in `Option`.
* The call operator of `BuildMapper` is ill-formed for an empty index pack
  (`auto dummy = {}` deduces no type), so it takes the fact that the pack is
  not empty, and `build` takes at least one binding.
* What `Build.hpp` uses from other headers (`Gen`, `gen::map`, `gen::tuple`,
  `gen::arbitrary`, `applyTuple`, `MakeIndexSequence`, `fn::constant`,
  `shrinkable::lambda`) is modelled from the specification; each such
  definition says so.  Shrinking is outside the specification, so a generator
  is modelled by the value of the shrinkable it returns.
* A constructor `T(Args...)` is a callable from the arguments to the object;
  allocation by `new` and `std::make_shared` does not fail.
-/

namespace rc

universe u v

/-! ## `std::tuple` -/

/-- The type `std::tuple<φ Ts...>`: one component `φ t` per listed type. -/
@[reducible] def TupleOf (φ : Type → Type u) : List Type → Type u
  | [] => PUnit
  | t :: ts => φ t × TupleOf φ ts

/-- The type `std::tuple<Ts...>`. -/
@[reducible] def Tuple (ts : List Type) : Type := TupleOf (fun t => t) ts

/-- The component `std::get<i>(tuple)`. -/
def TupleOf.get {φ : Type → Type u} :
    {ts : List Type} → TupleOf φ ts → (i : Fin ts.length) → φ (ts.get i)
  | [], _, i => i.elim0
  | _ :: _, x, ⟨0, _⟩ => x.1
  | _ :: _, x, ⟨i + 1, h⟩ => TupleOf.get x.2 ⟨i, Nat.lt_of_succ_lt_succ h⟩

/-- The pack expansion `f(xs)...` over the components of a tuple. -/
def TupleOf.map {φ : Type → Type u} {ψ : Type → Type v} (f : (t : Type) → φ t → ψ t) :
    {ts : List Type} → TupleOf φ ts → TupleOf ψ ts
  | [], _ => PUnit.unit
  | t :: _, x => (f t x.1, TupleOf.map f x.2)

/-- The tuple of the components of `xs` followed by those of `ys`. -/
def TupleOf.append {φ : Type → Type u} :
    {as bs : List Type} → TupleOf φ as → TupleOf φ bs → TupleOf φ (as ++ bs)
  | [], _, _, ys => ys
  | _ :: _, _, xs, ys => (xs.1, TupleOf.append xs.2 ys)

/-- The type of a callable taking arguments of the listed types, in order,
and returning `R`. -/
@[reducible] def Fn : List Type → Type → Type
  | [], R => R
  | t :: ts, R => t → Fn ts R

namespace detail

/-- Modelled from the spec: `rc::detail::applyTuple`, of
`rapidcheck/detail/ApplyTuple.h`.  It destructures the positional value-group into
its elements and invokes the callable with each positional element as a
separate argument, preserving order. -/
def applyTuple {R : Type} : {ts : List Type} → Tuple ts → Fn ts R → R
  | [], _, f => f
  | _ :: _, x, f => applyTuple x.2 (f x.1)

/-- Modelled from the spec: `rc::detail::MakeIndexSequence<N>`, declared in
another header; it is the index sequence `0, 1, ..., N-1` in ascending
positional order. -/
def MakeIndexSequence (n : Nat) : List (Fin n) := List.finRange n

end detail

/-! ## The generation engine (external collaborator) -/

/-- Modelled from the spec: the random source of the generation engine.  A
source can be split into two independent sources. -/
structure Engine where
  /-- The random source. -/
  Random : Type
  /-- Splitting a source: the source given away and the source kept. -/
  split : Random → Random × Random

/-- Modelled from the spec: `Gen<T>`, a capability producing a sample of type
`T` given a random source and a size parameter. -/
def Gen (E : Engine) (α : Type) : Type := E.Random → Nat → α

namespace gen

variable {E : Engine}

/-- Modelled from the spec: `gen::map(gen, f)`, the generator of `f` applied
to the sample of `gen`. -/
def map {α β : Type} (g : Gen E α) (f : α → β) : Gen E β :=
  fun random size => f (g random size)

/-- Modelled from the spec: `gen::tuple(gens...)`, the tuple-combination that
samples each generator independently (each on a source of its own, split
from the given one, all at the same size) and yields the samples in the
positional order of the generators. -/
def tuple : {ts : List Type} → TupleOf (Gen E) ts → Gen E (Tuple ts)
  | [], _ => fun _ _ => PUnit.unit
  | _ :: _, gs => fun random size =>
      (gs.1 (E.split random).1 size, tuple gs.2 (E.split random).2 size)

/-- Modelled from the spec: `fn::constant(x)`, the callable that returns `x`
whatever its arguments. -/
def fnConstant {α : Type} (x : α) : Gen E α := fun _ _ => x

/-- Modelled from the spec: `shrinkable::lambda(f)`, the shrinkable whose
value is `f()`. -/
def shrinkableLambda {α : Type} (f : Unit → α) : α := f ()

/-- Modelled from the spec: `always(v)`, the generator that yields `v` in every
sample. -/
def always {α : Type} (v : α) : Gen E α := fun _ _ => v

end gen

/-- The random source that `gen::tuple` hands to the generator at position
`i` when it is itself sampled on `random`. -/
def Engine.source (E : Engine) : Nat → E.Random → E.Random
  | 0, random => (E.split random).1
  | i + 1, random => Engine.source E i (E.split random).2

/-! ## Objects and pointers to members -/

/-- An object of a class whose non-static data members are named by `F`,
member `f` having the declared type `Ty f`. -/
@[reducible] def Obj {F : Type} (Ty : F → Type) : Type := (f : F) → Ty f

/-- The pointer-to-member types that `Lens` is specialised for:
`T (Type::*)`, `Ret (Type::*)(T)` and `Ret (Type::*)(T1, T2, Ts...)`.  The
index is the `ValueType` of the lens. -/
inductive Member {F : Type} (Ty : F → Type) : Type → Type 1 where
  /-- A pointer to the data member `f`. -/
  | var (f : F) : Member Ty (Ty f)
  /-- A pointer to a member function with a single argument. -/
  | fn1 {Ret T : Type} (m : Obj Ty → T → Ret × Obj Ty) : Member Ty T
  /-- A pointer to a member function with two or more arguments. -/
  | fnN {Ret T1 T2 : Type} {Ts : List Type}
      (m : Obj Ty → Fn (T1 :: T2 :: Ts) (Ret × Obj Ty)) :
      Member Ty (Tuple (T1 :: T2 :: Ts))

/-- The call `f(args...)` of a callable on the rest of an argument pack,
followed by `k` on what the call returns. -/
def Fn.andThen {R S : Type} (k : R → S) : {ts : List Type} → Fn ts R → Fn ts S
  | [], r => k r
  | _ :: _, f => fun a => Fn.andThen k (f a)

/-- The callable that receives its arguments one by one and hands the
argument list it received, as a tuple, to `h`. -/
def Fn.ofTuple {R : Type} : {ts : List Type} → (Tuple ts → R) → Fn ts R
  | [], h => h PUnit.unit
  | _ :: _, h => fun a => Fn.ofTuple (fun rest => h (a, rest))

namespace gen
namespace detail

open rc.detail

variable {F : Type} {Ty : F → Type}

/-- The class template `Lens<Member>`: it stores the pointer to member. -/
structure Lens {F : Type} (Ty : F → Type) (ValueType : Type) where
  /-- The stored pointer to member. -/
  m_ptr : Member Ty ValueType

/-- The member function `Lens<Member>::set(obj, arg)`, one equation per specialisation:
`obj.*m_ptr = std::move(arg)`, `(obj.*m_ptr)(std::move(arg))`, and the call
of `m_ptr` on the elements of `arg` through `applyTuple`. -/
def Lens.set [DecidableEq F] : {V : Type} → Lens Ty V → Obj Ty → V → Obj Ty
  | _, ⟨Member.var f⟩, obj, arg => Function.update obj f arg
  | _, ⟨Member.fn1 m⟩, obj, arg => (m obj arg).2
  | _, ⟨Member.fnN m⟩, obj, arg =>
      applyTuple arg (fun arg1 arg2 => Fn.andThen Prod.snd (m obj arg1 arg2))

/-- The struct `Binding<Member>`: a lens and a generator of its `ValueType`. -/
structure Binding (E : Engine) {F : Type} (Ty : F → Type) (ValueType : Type) where
  /-- The lens. -/
  lens : Lens Ty ValueType
  /-- The generator. -/
  gen : Gen E ValueType

/-- The type `T` of `BuildMapper<T, ...>` over a target class: the object
itself, a `std::unique_ptr` to it or a `std::shared_ptr` to it.  A pointer is
the object it owns, or `none` when it is empty. -/
inductive Holder (α : Type) where
  /-- The object itself. -/
  | direct (x : α)
  /-- A `std::unique_ptr`. -/
  | unique_ptr (p : Option α)
  /-- A `std::shared_ptr`. -/
  | shared_ptr (p : Option α)

/-- A mutable reference `α &` into a holder of type `T`: the object referred
to, and the holder once the object referred to has been given a new state. -/
structure Ref (T α : Type) where
  /-- The object referred to. -/
  target : α
  /-- The holder after the object referred to has become the given one. -/
  assign : α → T

/-- The three overloads of `deref`: `return x;` for the object itself and
`return *x;` for the two pointers, undefined on an empty pointer. -/
def deref {α : Type} : Holder α → Option (Ref (Holder α) α)
  | Holder.direct x => some ⟨x, Holder.direct⟩
  | Holder.unique_ptr (some x) => some ⟨x, fun y => Holder.unique_ptr (some y)⟩
  | Holder.unique_ptr none => none
  | Holder.shared_ptr (some x) => some ⟨x, fun y => Holder.shared_ptr (some y)⟩
  | Holder.shared_ptr none => none

/-- The class template `BuildMapper<T, IndexSequence<Indexes...>, Lenses...>`. -/
structure BuildMapper {F : Type} (Ty : F → Type) (vs : List Type) where
  /-- The template parameter pack `Indexes`. -/
  Indexes : List (Fin vs.length)
  /-- The stored lenses. -/
  m_lenses : TupleOf (Lens Ty) vs

/-- The call operator `BuildMapper::operator()(tuple)`: `obj` refers to `std::get<0>(tuple)`;
for each index of the pack, left to right (the order of a braced initialiser
list), the lens at that index is `set` on `deref(obj)` with
`std::get<Indexes + 1>(tuple)`; `obj` is returned.  The initialiser list
`auto dummy = {...}` has one element per index and is ill-formed when there is
none, so the operator exists only for an index pack that is not empty. -/
def BuildMapper.call [DecidableEq F] {vs : List Type} (self : BuildMapper Ty vs)
    (_nonempty : self.Indexes ≠ []) (tuple : Tuple (Holder (Obj Ty) :: vs)) :
    Option (Holder (Obj Ty)) :=
  self.Indexes.foldlM
    (fun obj i =>
      (deref obj).map (fun r =>
        r.assign
          ((self.m_lenses.get i).set r.target
            (TupleOf.get tuple ⟨i.val + 1, Nat.succ_lt_succ i.isLt⟩))))
    (TupleOf.get tuple ⟨0, Nat.succ_pos _⟩)

/-- The free store: the object that lives at each address, `none` where none
does. -/
@[reducible] def Store (α : Type) : Type := Nat → Option α

/-- The type `T` of `BuildMapper<T, ...>` with the identity of the pointers: a
pointer is the address, on the free store, of the object it owns, or `none`
when it is empty. -/
inductive Handle (α : Type) where
  /-- The object itself. -/
  | direct (x : α)
  /-- A `std::unique_ptr`. -/
  | unique_ptr (p : Option Nat)
  /-- A `std::shared_ptr`. -/
  | shared_ptr (p : Option Nat)

/-- What a mutable reference refers to: the object held in the tuple itself,
or the object at an address of the free store. -/
inductive Place where
  /-- The object held in the tuple. -/
  | held
  /-- The object at the address `a`. -/
  | stored (a : Nat)

/-- The three overloads of `deref` on handles: `return x;` refers to the
object held, `return *x;` to the object at the address the pointer holds, and
is undefined on an empty pointer.  It reads and writes nothing. -/
def Handle.deref {α : Type} : Handle α → Option Place
  | Handle.direct _ => some Place.held
  | Handle.unique_ptr (some a) => some (Place.stored a)
  | Handle.unique_ptr none => none
  | Handle.shared_ptr (some a) => some (Place.stored a)
  | Handle.shared_ptr none => none

/-- The object read through a reference; undefined where no object lives. -/
def Place.read {α : Type} : Place → Handle α → Store α → Option α
  | Place.held, Handle.direct x, _ => some x
  | Place.held, _, _ => none
  | Place.stored a, _, store => store a

/-- The handle and the store after the object referred to has become `y`:
only the object referred to changes. -/
def Place.write {α : Type} : Place → α → Handle α → Store α → Handle α × Store α
  | Place.held, y, _, store => (Handle.direct y, store)
  | Place.stored a, y, obj, store => (obj, Function.update store a (some y))

/-- The call operator `BuildMapper::operator()(tuple)` on the free store: as
`BuildMapper.call`, each `set` reading and writing the object that
`deref(obj)` refers to; `obj`, the handle, is returned with the store. -/
def BuildMapper.callOnStore [DecidableEq F] {vs : List Type} (self : BuildMapper Ty vs)
    (_nonempty : self.Indexes ≠ []) (tuple : Tuple (Handle (Obj Ty) :: vs))
    (store : Store (Obj Ty)) : Option (Handle (Obj Ty) × Store (Obj Ty)) :=
  self.Indexes.foldlM
    (fun state i =>
      (Handle.deref state.1).bind (fun place =>
        (place.read state.1 state.2).map (fun target =>
          place.write
            ((self.m_lenses.get i).set target
              (TupleOf.get tuple ⟨i.val + 1, Nat.succ_lt_succ i.isLt⟩))
            state.1 state.2)))
    (TupleOf.get tuple ⟨0, Nat.succ_pos _⟩, store)

/-- The holder that a handle is on a store: each pointer with the object it
owns there. -/
def Handle.view {α : Type} (store : Store α) : Handle α → Holder α
  | Handle.direct x => Holder.direct x
  | Handle.unique_ptr p => Holder.unique_ptr (p.bind store)
  | Handle.shared_ptr p => Holder.shared_ptr (p.bind store)

end detail

open rc.detail

variable {E : Engine} {F : Type} {Ty : F → Type}

/-- The function `set(member, gen)`: the binding of the lens on `member` with `gen`. -/
def set {V : Type} (member : Member Ty V) (gen : Gen E V) : detail.Binding E Ty V :=
  detail.Binding.mk (detail.Lens.mk member) gen

/-- The function `build(gen, bs...)`: the tuple of `gen` and the generators of the bindings,
mapped through the `BuildMapper` on the lenses of the bindings, the index
pack being `MakeIndexSequence<sizeof...(Members)>`.  The call operator of the
mapper exists only for a pack that is not empty, so there is at least one
binding. -/
def build [DecidableEq F] {v : Type} {vs : List Type} (gen : Gen E (detail.Holder (Obj Ty)))
    (bs : TupleOf (detail.Binding E Ty) (v :: vs)) :
    Gen E (Option (detail.Holder (Obj Ty))) :=
  map
    (tuple
      ((gen, TupleOf.map (fun _ b => b.gen) bs) :
        TupleOf (Gen E) (detail.Holder (Obj Ty) :: v :: vs)))
    (detail.BuildMapper.call
      (detail.BuildMapper.mk (MakeIndexSequence (v :: vs).length)
        (TupleOf.map (fun _ b => b.lens) bs))
      (by
        show List.finRange (vs.length + 1) ≠ []
        rw [List.finRange_succ_eq_map]
        exact List.cons_ne_nil _ _))

/-- The function `build<T>(bs...)`: `build` on the constant generator of the shrinkable
whose value is `T()`; `T()` is the default constructor of `T`. -/
def buildDefault [DecidableEq F] {v : Type} {vs : List Type}
    (T : Unit → detail.Holder (Obj Ty)) (bs : TupleOf (detail.Binding E Ty) (v :: vs)) :
    Gen E (Option (detail.Holder (Obj Ty))) :=
  build (fnConstant (shrinkableLambda (fun _ => T ()))) bs

/-- The function `construct<T>(gens...)`: the tuple of the generators, mapped
through the call, by `applyTuple`, of the constructor `T(args...)` on the
elements of the sampled tuple. -/
def construct {α : Type} {Args : List Type} (T : Fn Args α)
    (gens : TupleOf (Gen E) Args) : Gen E α :=
  map (tuple gens) (fun argsTuple => applyTuple argsTuple T)

/-- Modelled from the spec: the factory `gen::arbitrary<V>()` of the default
"arbitrary value of type `V`" generator, one per value type. -/
structure Arbitrary (E : Engine) (V : Type) where
  /-- The generator `gen::arbitrary<V>()`. -/
  arbitrary : Gen E V

/-- The function `construct<T, Arg, Args...>()` without generators:
`construct<T>(gen::arbitrary<Arg>(), gen::arbitrary<Args>()...)`. -/
def constructArbitrary {α : Type} {Arg : Type} {Args : List Type} (T : Fn (Arg :: Args) α)
    (arb : TupleOf (Arbitrary E) (Arg :: Args)) : Gen E α :=
  @construct E α (Arg :: Args) T
    (arb.1.arbitrary, TupleOf.map (fun _ a => a.arbitrary) arb.2)

/-- The function `makeUnique<T>(gens...)`: as `construct`, the callable being
`std::unique_ptr<T>(new T(args...))`. -/
def makeUnique {α : Type} {Args : List Type} (T : Fn Args α)
    (gens : TupleOf (Gen E) Args) : Gen E (detail.Holder α) :=
  map (tuple gens)
    (fun argsTuple =>
      applyTuple argsTuple (Fn.andThen (fun x => detail.Holder.unique_ptr (some x)) T))

/-- The function `makeShared<T>(gens...)`: as `construct`, the callable being
`std::make_shared<T>(args...)`. -/
def makeShared {α : Type} {Args : List Type} (T : Fn Args α)
    (gens : TupleOf (Gen E) Args) : Gen E (detail.Holder α) :=
  map (tuple gens)
    (fun argsTuple =>
      applyTuple argsTuple (Fn.andThen (fun x => detail.Holder.shared_ptr (some x)) T))

end gen

/-! ## The specification side -/

namespace spec

open rc.gen.detail

variable {F : Type} {Ty : F → Type}

/-- The three ownership forms of the specification. -/
inductive Ownership where
  /-- The object itself. -/
  | Direct
  /-- An exclusive ownership indirection. -/
  | SoleOwner
  /-- A shared ownership indirection. -/
  | SharedOwner
  deriving DecidableEq

/-- The wrapper of the given form over the underlying object `x`. -/
def wrap {α : Type} : Ownership → α → Holder α
  | Ownership.Direct, x => Holder.direct x
  | Ownership.SoleOwner, x => Holder.unique_ptr (some x)
  | Ownership.SharedOwner, x => Holder.shared_ptr (some x)

/-- The algorithm of the composer in the words of the specification: for
`i = 1..n`, in ascending positional order, the accessor of binding `i` is set
on the object with the value `v_i`. -/
def composer [DecidableEq F] :
    {vs : List Type} → TupleOf (Lens Ty) vs → Tuple vs → Obj Ty → Obj Ty
  | [], _, _, obj => obj
  | _ :: _, lenses, values, obj =>
      composer lenses.2 values.2 (Lens.set lenses.1 obj values.1)

/-- The default base generator in the words of the specification: it always
yields a default-constructed `T`, with no randomness. -/
def alwaysDefault {E : Engine} {α : Type} (T : Unit → α) : Gen E α :=
  fun _ _ => T ()

/-- Whether a holder holds an object: the object itself, or a pointer that is
not empty. -/
def holdsObject {α : Type} : Holder α → Bool
  | Holder.direct _ => true
  | Holder.unique_ptr p => p.isSome
  | Holder.shared_ptr p => p.isSome

/-- The default generators in the words of the specification: one "arbitrary"
generator per listed constructor parameter, in the listed order. -/
def arbitraries {E : Engine} {Args : List Type} (arb : TupleOf (gen.Arbitrary E) Args) :
    TupleOf (Gen E) Args :=
  TupleOf.map (fun _ a => a.arbitrary) arb

/-- The field lenses `Lens<T Type::*>` on the listed fields, in the listed
order. -/
def fieldLenses : (fs : List F) → TupleOf (Lens Ty) (fs.map Ty)
  | [] => PUnit.unit
  | f :: fs => (Lens.mk (Member.var f), fieldLenses fs)

/-- The bindings `set(&T::f, G_f)` on the listed fields, in the listed order,
each with its generator. -/
def fieldBindings {E : Engine} :
    (fs : List F) → TupleOf (Gen E) (fs.map Ty) → TupleOf (Binding E Ty) (fs.map Ty)
  | [], _ => PUnit.unit
  | f :: fs, G => (gen.set (Member.var f) G.1, fieldBindings fs G.2)

end spec

/-! ## A concrete class and a concrete engine -/

namespace example_

open rc.gen.detail

/-- The data members of the example class of the specification: `count` and
the two range fields. -/
inductive Field where
  /-- The member `int count`. -/
  | count
  /-- The member `int low`. -/
  | low
  /-- The member `int high`. -/
  | high
  deriving DecidableEq

/-- The declared types of the members: all are `int`. -/
@[reducible] def Ty : Field → Type := fun _ => Int

/-- The default-constructed object: all members zero. -/
def T : Unit → Obj Ty := fun _ _ => 0

/-- The setter `void setRange(int low, int high)`, which stores its arguments
in the range fields. -/
def setRange (obj : Obj Ty) (low high : Int) : Unit × Obj Ty :=
  ((), Function.update (Function.update obj Field.low low) Field.high high)

/-- The setter `void setCount(int count)`, which stores its argument in
`count`. -/
def setCount (obj : Obj Ty) (count : Int) : Unit × Obj Ty :=
  ((), Function.update obj Field.count count)

/-- The constructor `T(int count, int low, int high)`. -/
def ctor (count low high : Int) : Obj Ty
  | Field.count => count
  | Field.low => low
  | Field.high => high

/-- The getter `int getCount()`. -/
def getCount (obj : Obj Ty) : Int := obj Field.count

/-- A class whose single member `log` is a list of integers. -/
@[reducible] def LogTy : Unit → Type := fun _ => List Int

/-- The setter `void record(int a, int b, int c)` of the test class, which
appends its argument list to `log`. -/
def record (obj : Obj LogTy) (a b c : Int) : Unit × Obj LogTy :=
  ((), fun _ => obj () ++ [a, b, c])

/-- A free store with the default-constructed object at address `3` and
nothing elsewhere. -/
def store : Store (Obj Ty) := Function.update (fun _ => none) 3 (some (T ()))

/-- An engine whose random source is a natural number, split into its two
successors in a binary tree. -/
@[reducible] def engine : Engine := ⟨Nat, fun random => (2 * random + 1, 2 * random + 2)⟩

/-- The generator that yields its random source plus its size. -/
def sourceGen : Gen engine Int := fun random size => (random : Int) + size

end example_

end rc

/-! ## Lemmas -/

namespace rc

open rc.gen rc.gen.detail rc.detail rc.spec

/-- The index sequence of a pack that is not empty is not empty. -/
theorem MakeIndexSequence_ne_nil (n : Nat) : MakeIndexSequence (n + 1) ≠ [] := by
  show List.finRange (n + 1) ≠ []
  rw [List.finRange_succ_eq_map]
  exact List.cons_ne_nil _ _

/-- A fold of partial steps commutes with a view of the state that each step
commutes with. -/
theorem foldlM_map_of_step {σ τ ι : Type} (view : σ → τ) (stepS : σ → ι → Option σ)
    (stepV : τ → ι → Option τ)
    (h : ∀ (s : σ) (i : ι), (stepS s i).map view = stepV (view s) i) (l : List ι) (s : σ) :
    (l.foldlM stepS s).map view = l.foldlM stepV (view s) := by
  induction l generalizing s with
  | nil => rfl
  | cons i l ih =>
    rw [List.foldlM_cons, List.foldlM_cons, ← h s i]
    cases stepS s i with
    | none => rfl
    | some s1 => exact ih s1

/-- One step of the loop on the free store, seen through the pointers, is the
step on the holder that the handle is. -/
theorem step_view {α : Type} (f : α → α) (obj : Handle α) (store : Store α) :
    ((Handle.deref obj).bind (fun place =>
        (place.read obj store).map (fun target => place.write (f target) obj store))).map
        (fun state => Handle.view state.2 state.1)
      = (deref (Handle.view store obj)).map (fun r => r.assign (f r.target)) := by
  rcases obj with x | p | p
  · rfl
  · cases p with
    | none => rfl
    | some a =>
      cases hx : store a with
      | none => simp [Handle.deref, Place.read, Handle.view, hx, deref]
      | some x => simp [Handle.deref, Place.read, Place.write, Handle.view, hx, deref]
  · cases p with
    | none => rfl
    | some a =>
      cases hx : store a with
      | none => simp [Handle.deref, Place.read, Handle.view, hx, deref]
      | some x => simp [Handle.deref, Place.read, Place.write, Handle.view, hx, deref]

section lemmas

variable {E : Engine} {F : Type} [DecidableEq F] {Ty : F → Type}

/-- The sample of a tuple of generators has, at position `i`, the sample of
the generator at position `i` on the source handed to that position. -/
theorem tuple_get {ts : List Type} (gs : TupleOf (Gen E) ts) (i : Fin ts.length)
    (random : E.Random) (size : Nat) :
    TupleOf.get (tuple gs random size) i = TupleOf.get gs i (E.source i.val random) size := by
  induction ts generalizing random with
  | nil => exact i.elim0
  | cons t ts ih =>
    obtain ⟨i, hi⟩ := i
    cases i with
    | zero => rfl
    | succ i => exact ih gs.2 ⟨i, Nat.lt_of_succ_lt_succ hi⟩ (E.split random).2

/-- Dereferencing a wrapper over `x` yields `x`, and assigning through the
reference yields the wrapper of the same form over the assigned object. -/
theorem deref_wrap {α : Type} (form : Ownership) (x : α) :
    deref (wrap form x) = some ⟨x, wrap form⟩ := by
  cases form <;> rfl

/-- The dereference is defined exactly on the holders that hold an object. -/
theorem deref_isSome {α : Type} (h : Holder α) : (deref h).isSome = holdsObject h := by
  rcases h with x | p | p
  · rfl
  · cases p <;> rfl
  · cases p <;> rfl

/-- The loop of the build mapper over the ascending index sequence, on a
wrapper over `x`, is the wrapper of the same form over the left fold of the
lenses over the values. -/
theorem foldlM_indexes (form : Ownership) {vs : List Type} (lenses : TupleOf (Lens Ty) vs)
    (values : Tuple vs) (x : Obj Ty) :
    (List.finRange vs.length).foldlM
        (fun obj i =>
          (deref obj).map (fun r =>
            r.assign (Lens.set (TupleOf.get lenses i) r.target (TupleOf.get values i))))
        (wrap form x)
      = some (wrap form (composer lenses values x)) := by
  induction vs generalizing x with
  | nil => rfl
  | cons v vs ih =>
    show List.foldlM _ _ (List.finRange (vs.length + 1)) = _
    rw [List.finRange_succ_eq_map, List.foldlM_cons, deref_wrap]
    simp only [Option.map_some', Option.bind_eq_bind, Option.some_bind, List.foldlM_map]
    exact ih lenses.2 values.2 (Lens.set lenses.1 x values.1)

/-- The build mapper on the index sequence of `build`, at a value-group whose
base is a wrapper over `x`. -/
theorem call_wrap (form : Ownership) {v : Type} {vs : List Type}
    (lenses : TupleOf (Lens Ty) (v :: vs)) (values : Tuple (v :: vs)) (x : Obj Ty) :
    BuildMapper.call (BuildMapper.mk (MakeIndexSequence (v :: vs).length) lenses)
        (MakeIndexSequence_ne_nil vs.length)
        ((wrap form x, values) : Tuple (Holder (Obj Ty) :: v :: vs))
      = some (wrap form (composer lenses values x)) :=
  foldlM_indexes form lenses values x

/-- The loop of the build mapper on the free store, on the object held in the
tuple: the store is left as it is. -/
theorem foldlM_indexes_held {vs : List Type} (lenses : TupleOf (Lens Ty) vs)
    (values : Tuple vs) (x : Obj Ty) (store : Store (Obj Ty)) :
    (List.finRange vs.length).foldlM
        (fun state i =>
          (Handle.deref state.1).bind (fun place =>
            (place.read state.1 state.2).map (fun target =>
              place.write (Lens.set (TupleOf.get lenses i) target (TupleOf.get values i))
                state.1 state.2)))
        (Handle.direct x, store)
      = some (Handle.direct (composer lenses values x), store) := by
  induction vs generalizing x with
  | nil => rfl
  | cons v vs ih =>
    show List.foldlM _ _ (List.finRange (vs.length + 1)) = _
    rw [List.finRange_succ_eq_map, List.foldlM_cons]
    simp only [Handle.deref, Place.read, Place.write, Option.map_some', Option.bind_eq_bind,
      Option.some_bind, List.foldlM_map]
    exact ih lenses.2 values.2 (Lens.set lenses.1 x values.1)

/-- The loop of the build mapper on the free store, on a pointer to the
address `a` where `x` lives: the pointer is as it was, and the store differs
only at `a`, where the left fold of the lenses over the values now lives. -/
theorem foldlM_indexes_stored (obj : Handle (Obj Ty)) (a : Nat)
    (hobj : Handle.deref obj = some (Place.stored a)) {vs : List Type}
    (lenses : TupleOf (Lens Ty) vs) (values : Tuple vs) (x : Obj Ty)
    (store : Store (Obj Ty)) (hx : store a = some x) :
    (List.finRange vs.length).foldlM
        (fun state i =>
          (Handle.deref state.1).bind (fun place =>
            (place.read state.1 state.2).map (fun target =>
              place.write (Lens.set (TupleOf.get lenses i) target (TupleOf.get values i))
                state.1 state.2)))
        (obj, store)
      = some (obj, Function.update store a (some (composer lenses values x))) := by
  induction vs generalizing x store with
  | nil =>
    show some (obj, store) = some (obj, Function.update store a (some x))
    rw [← hx, Function.update_eq_self]
  | cons v vs ih =>
    show List.foldlM _ _ (List.finRange (vs.length + 1)) = _
    rw [List.finRange_succ_eq_map, List.foldlM_cons]
    simp only [hobj, Place.read, Place.write, hx, Option.map_some', Option.bind_eq_bind,
      Option.some_bind, List.foldlM_map]
    have h := ih lenses.2 values.2 (Lens.set lenses.1 x values.1)
      (Function.update store a (some (Lens.set lenses.1 x values.1)))
      (Function.update_same a _ store)
    rw [Function.update_idem] at h
    exact h

/-- The build mapper on the free store, seen through the pointers, is the
build mapper on the holder that the handle is. -/
theorem callOnStore_view {vs : List Type} (self : BuildMapper Ty vs)
    (nonempty : self.Indexes ≠ []) (obj : Handle (Obj Ty)) (values : Tuple vs)
    (store : Store (Obj Ty)) :
    (BuildMapper.callOnStore self nonempty
        ((obj, values) : Tuple (Handle (Obj Ty) :: vs)) store).map
        (fun state => Handle.view state.2 state.1)
      = BuildMapper.call self nonempty
          ((Handle.view store obj, values) : Tuple (Holder (Obj Ty) :: vs)) :=
  foldlM_map_of_step (fun state => Handle.view state.2 state.1) _ _
    (fun state _ => step_view _ state.1 state.2) self.Indexes (obj, store)

/-- The call of a callable followed by `k`, through `applyTuple`, is `k` on
the call of the callable. -/
theorem applyTuple_andThen {R S : Type} (k : R → S) {ts : List Type} (values : Tuple ts)
    (f : Fn ts R) : applyTuple values (Fn.andThen k f) = k (applyTuple values f) := by
  induction ts with
  | nil => rfl
  | cons t ts ih => exact ih values.2 (f values.1)

/-- The call of the curried callable made from `h`, through `applyTuple`, is
`h` on the tuple. -/
theorem applyTuple_ofTuple {R : Type} {ts : List Type} (h : Tuple ts → R)
    (values : Tuple ts) : applyTuple values (Fn.ofTuple h) = h values := by
  induction ts with
  | nil => rfl
  | cons t ts ih => exact ih (fun rest => h (values.1, rest)) values.2

/-- The component of a pack expansion is the expansion of the component. -/
theorem TupleOf.get_map {φ : Type → Type u} {ψ : Type → Type v}
    (f : (t : Type) → φ t → ψ t) {ts : List Type} (x : TupleOf φ ts) (i : Fin ts.length) :
    TupleOf.get (TupleOf.map f x) i = f (ts.get i) (TupleOf.get x i) := by
  induction ts with
  | nil => exact i.elim0
  | cons t ts ih =>
    obtain ⟨i, hi⟩ := i
    cases i with
    | zero => rfl
    | succ i => exact ih x.2 ⟨i, Nat.lt_of_succ_lt_succ hi⟩

/-- A holder is a wrapper over an object, or its dereference is undefined. -/
theorem deref_eq_none_or_wrap {α : Type} (base : Holder α) :
    deref base = none ∨ ∃ (form : Ownership) (x : α), base = wrap form x := by
  rcases base with x | p | p
  · exact Or.inr ⟨Ownership.Direct, x, rfl⟩
  · cases p with
    | none => exact Or.inl rfl
    | some x => exact Or.inr ⟨Ownership.SoleOwner, x, rfl⟩
  · cases p with
    | none => exact Or.inl rfl
    | some x => exact Or.inr ⟨Ownership.SharedOwner, x, rfl⟩

/-- The build mapper with at least one lens is undefined on a base whose
dereference is undefined. -/
theorem call_eq_none {v : Type} {vs : List Type} (lenses : TupleOf (Lens Ty) (v :: vs))
    (values : Tuple (v :: vs)) (base : Holder (Obj Ty)) (h : deref base = none) :
    BuildMapper.call (BuildMapper.mk (MakeIndexSequence (v :: vs).length) lenses)
        (MakeIndexSequence_ne_nil vs.length)
        ((base, values) : Tuple (Holder (Obj Ty) :: v :: vs))
      = none := by
  show List.foldlM _ base (List.finRange (vs.length + 1)) = none
  rw [List.finRange_succ_eq_map, List.foldlM_cons, h]
  rfl

/-- The left fold of the specification over a concatenation is the fold over
the second part, started from the fold over the first. -/
theorem composer_append {vs1 vs2 : List Type} (L1 : TupleOf (Lens Ty) vs1)
    (L2 : TupleOf (Lens Ty) vs2) (V1 : Tuple vs1) (V2 : Tuple vs2) (x : Obj Ty) :
    composer (TupleOf.append L1 L2) (TupleOf.append V1 V2) x
      = composer L2 V2 (composer L1 V1 x) := by
  induction vs1 generalizing x with
  | nil => rfl
  | cons v vs1 ih => exact ih L1.2 V1.2 (Lens.set L1.1 x V1.1)

/-- The left fold over field lenses leaves every field that is not listed as
it was. -/
theorem composer_fieldLenses_frame (fs : List F) (g : F) (hg : g ∉ fs)
    (values : Tuple (fs.map Ty)) (x : Obj Ty) :
    composer (fieldLenses fs) values x g = x g := by
  induction fs generalizing x with
  | nil => rfl
  | cons f fs ih =>
    have hgf : g ≠ f := fun h => hg (h ▸ List.mem_cons_self g fs)
    have hgfs : g ∉ fs := fun h => hg (List.mem_cons_of_mem f h)
    exact (ih hgfs values.2 (Function.update x f values.1)).trans
      (Function.update_noteq hgf values.1 x)

end lemmas

section bindings

variable {E : Engine} {F : Type} {Ty : F → Type}

/-- The lenses of the field bindings are the field lenses. -/
theorem map_lens_fieldBindings (fs : List F) (G : TupleOf (Gen E) (fs.map Ty)) :
    TupleOf.map (fun _ b => b.lens) (fieldBindings fs G) = fieldLenses fs := by
  induction fs with
  | nil => rfl
  | cons f fs ih => exact congrArg (Prod.mk (Lens.mk (Member.var f))) (ih G.2)

end bindings

end rc

/-! ## The claims -/

namespace rc

open rc.gen rc.gen.detail rc.detail rc.spec

section claims

variable {E : Engine} {F : Type} [DecidableEq F] {Ty : F → Type}

/-- C1: `Lens<T Type::*>::set` writes exactly the given value into the field,
and for every field `f`, every ownership form, every base generator and every
generator `G`, `build` with the single binding `set(f, G)` returns, in every
sample, the base object of that sample with the value that `G` produced in
that sample written into `f`, so that `result.f` is that value. -/
theorem build_field_assign (f : F) :
    (∀ (obj : Obj Ty) (v : Ty f), Lens.set (Lens.mk (Member.var f)) obj v f = v) ∧
    ∀ (form : Ownership) (baseGen : Gen E (Obj Ty)) (G : Gen E (Ty f))
      (random : E.Random) (size : Nat),
      ∃ result : Obj Ty,
        @build E F Ty _ (Ty f) [] (map baseGen (wrap form)) (gen.set (Member.var f) G, ⟨⟩)
            random size = some (wrap form result) ∧
        result
          = Function.update (baseGen (E.source 0 random) size) f
              (G (E.source 1 random) size) ∧
        result f = G (E.source 1 random) size := by
  refine ⟨fun obj v => Function.update_same f v obj, ?_⟩
  intro form baseGen G random size
  exact ⟨_, call_wrap form _ _ _, rfl, Function.update_same f _ _⟩

/-- C2: for a one-argument setter `s` whose argument a getter `g` reads back,
`build` with the single binding `set(s, G)` returns, in every sample, the base
object of that sample after exactly one call `s(v)`, `v` being the value that
`G` produced in that sample, and `g` of the result is `v`. -/
theorem build_unary_setter {Ret T : Type} (s : Obj Ty → T → Ret × Obj Ty) (g : Obj Ty → T)
    (hg : ∀ (obj : Obj Ty) (a : T), g (s obj a).2 = a)
    (form : Ownership) (baseGen : Gen E (Obj Ty)) (G : Gen E T)
    (random : E.Random) (size : Nat) :
    @build E F Ty _ T [] (map baseGen (wrap form)) (gen.set (Member.fn1 s) G, ⟨⟩)
        random size
        = some (wrap form
            (s (baseGen (E.source 0 random) size) (G (E.source 1 random) size)).2) ∧
    g (s (baseGen (E.source 0 random) size) (G (E.source 1 random) size)).2
        = G (E.source 1 random) size :=
  ⟨call_wrap form _ _ _, hg _ _⟩

/-- The witness of C2: the class with the setter `setCount` and the getter
`getCount`, a base held by a `std::unique_ptr`, on the concrete engine. -/
theorem build_unary_setter_witness :
    @build example_.engine example_.Field example_.Ty _ Int []
        (map (fun _ _ => example_.T ()) (wrap Ownership.SoleOwner))
        (gen.set (Member.fn1 example_.setCount) example_.sourceGen, ⟨⟩) 7 3
        = some (wrap Ownership.SoleOwner
            (example_.setCount (example_.T ())
              (example_.sourceGen (example_.engine.source 1 7) 3)).2) ∧
    example_.getCount
        (example_.setCount (example_.T ())
          (example_.sourceGen (example_.engine.source 1 7) 3)).2
        = example_.sourceGen (example_.engine.source 1 7) 3 :=
  build_unary_setter (E := example_.engine) example_.setCount example_.getCount
    (fun _ _ => rfl) Ownership.SoleOwner (fun _ _ => example_.T ()) example_.sourceGen 7 3

/-- The call of a curried callable made from `h`, through `applyTuple`, hands
`h` the tuple itself. -/
theorem applyTuple_andThen_ofTuple {R S : Type} (k : R → S) {ts : List Type}
    (h : Tuple ts → R) (values : Tuple ts) :
    applyTuple values (Fn.andThen k (Fn.ofTuple h)) = k (h values) := by
  induction ts with
  | nil => rfl
  | cons t ts ih => exact ih (fun rest => h (values.1, rest)) values.2

/-- C3: `Lens<Ret (Type::*)(T1, T2, Ts...)>::set(obj, (v1,...,vk))` leaves
`obj` in the state of the single call `setter(v1,...,vk)`: for two arguments
and for three by the call written out, for every arity by a setter that
passes the argument list it received on, which receives exactly the value
group, and for the test setter `record` that appends the arguments it
received to its log. -/
theorem variadic_set_positional :
    (∀ (Ret T1 T2 : Type) (m : Obj Ty → T1 → T2 → Ret × Obj Ty) (obj : Obj Ty)
        (v1 : T1) (v2 : T2),
        Lens.set (Lens.mk (@Member.fnN F Ty Ret T1 T2 [] m)) obj (v1, v2, ⟨⟩)
          = (m obj v1 v2).2) ∧
    (∀ (Ret T1 T2 T3 : Type) (m : Obj Ty → T1 → T2 → T3 → Ret × Obj Ty) (obj : Obj Ty)
        (v1 : T1) (v2 : T2) (v3 : T3),
        Lens.set (Lens.mk (@Member.fnN F Ty Ret T1 T2 [T3] m)) obj (v1, v2, v3, ⟨⟩)
          = (m obj v1 v2 v3).2) ∧
    (∀ (Ret T1 T2 : Type) (Ts : List Type)
        (h : Obj Ty → Tuple (T1 :: T2 :: Ts) → Ret × Obj Ty) (obj : Obj Ty)
        (values : Tuple (T1 :: T2 :: Ts)),
        Lens.set (Lens.mk (@Member.fnN F Ty Ret T1 T2 Ts (fun o => Fn.ofTuple (h o))))
            obj values
          = (h obj values).2) ∧
    (∀ (obj : Obj example_.LogTy) (a b c : Int),
        Lens.set
            (Lens.mk (@Member.fnN Unit example_.LogTy Unit Int Int [Int] example_.record))
            obj (a, b, c, ⟨⟩) ()
          = obj () ++ [a, b, c]) := by
  refine ⟨fun _ _ _ _ _ _ _ => rfl, fun _ _ _ _ _ _ _ _ _ => rfl, ?_, fun _ _ _ _ => rfl⟩
  intro Ret T1 T2 Ts h obj values
  exact applyTuple_andThen_ofTuple Prod.snd
    (fun rest => h obj (values.1, values.2.1, rest)) values.2.2

/-- C4: last write wins: for two bindings on the same field `f`, in the order
`(B1, B2)`, `build` returns, in every sample, the base object with the value
of `B1` and then the value of `B2` written into `f`; its field `f` is the
value sampled from `B2`, and so not the value sampled from `B1` when the two
differ. -/
theorem build_last_write_wins (f : F) (form : Ownership) (baseGen : Gen E (Obj Ty))
    (G1 G2 : Gen E (Ty f)) (random : E.Random) (size : Nat) :
    ∃ result : Obj Ty,
      @build E F Ty _ (Ty f) [Ty f] (map baseGen (wrap form))
          (gen.set (Member.var f) G1, gen.set (Member.var f) G2, ⟨⟩) random size
        = some (wrap form result) ∧
      result
        = Function.update
            (Function.update (baseGen (E.source 0 random) size) f
              (G1 (E.source 1 random) size))
            f (G2 (E.source 2 random) size) ∧
      result f = G2 (E.source 2 random) size ∧
      (G1 (E.source 1 random) size ≠ G2 (E.source 2 random) size →
        result f ≠ G1 (E.source 1 random) size) := by
  refine ⟨_, call_wrap form _ _ _, rfl, Function.update_same f _ _, ?_⟩
  intro hne heq
  exact hne (heq.symm.trans (Function.update_same f _ _))

/-- C5: for every number of lenses and every value-group `(base, v1,...,vn)`,
the build mapper (on the index sequence `0..n-1`, reading lens `i` and tuple
element `i + 1`) returns the object obtained by the left fold of the
specification, lens `i` set with value `i` in ascending positional order;
and `build` returns that fold over the lenses of its bindings at the values
its generators produced in the sample.  The number of lenses is at least
one, as the call operator needs. -/
theorem call_eq_composer (form : Ownership) {v : Type} {vs : List Type} :
    (∀ (lenses : TupleOf (Lens Ty) (v :: vs)) (values : Tuple (v :: vs)) (base : Obj Ty),
      BuildMapper.call (BuildMapper.mk (MakeIndexSequence (v :: vs).length) lenses)
          (MakeIndexSequence_ne_nil vs.length)
          ((wrap form base, values) : Tuple (Holder (Obj Ty) :: v :: vs))
        = some (wrap form (composer lenses values base))) ∧
    (∀ (baseGen : Gen E (Obj Ty)) (bs : TupleOf (Binding E Ty) (v :: vs))
        (random : E.Random) (size : Nat),
      build (map baseGen (wrap form)) bs random size
        = some (wrap form
            (composer (TupleOf.map (fun _ b => b.lens) bs)
              (tuple (TupleOf.map (fun _ b => b.gen) bs) (E.split random).2 size)
              (baseGen (E.source 0 random) size)))) :=
  ⟨fun lenses values base => call_wrap form lenses values base,
   fun _ _ _ _ => call_wrap form _ _ _⟩

/-- C7: `build<T>(bs...)` without a base generator is `build<T>(g0, bs...)`
for the generator `g0` that always yields the default-constructed `T`; `g0`
yields `T()` on every random source and size. -/
theorem build_default_base {v : Type} {vs : List Type} (T : Unit → Holder (Obj Ty))
    (bs : TupleOf (Binding E Ty) (v :: vs)) :
    buildDefault T bs = build (alwaysDefault T) bs ∧
    (∀ (random : E.Random) (size : Nat),
      buildDefault T bs random size = build (alwaysDefault T) bs random size) ∧
    ∀ (random random_ : E.Random) (size size_ : Nat),
      alwaysDefault (E := E) T random size = T () ∧
      alwaysDefault (E := E) T random size = alwaysDefault (E := E) T random_ size_ :=
  ⟨rfl, fun _ _ => rfl, fun _ _ _ _ => ⟨rfl, rfl⟩⟩

/-- C8: for a class with a field `count` and a two-argument setter `setRange`
that stores its arguments where `rangeLow` and `rangeHigh` read them and
leaves `count` alone, `build<T>(set(&T::count, always(c)),
set(&T::setRange, always((a, b))))` returns, in every sample, an object with
`count == c` and range fields `(a, b)`. -/
theorem build_count_and_range {Ret A B : Type} (count : F)
    (setRange : Obj Ty → A → B → Ret × Obj Ty)
    (rangeLow : Obj Ty → A) (rangeHigh : Obj Ty → B)
    (hlow : ∀ (o : Obj Ty) (a : A) (b : B), rangeLow (setRange o a b).2 = a)
    (hhigh : ∀ (o : Obj Ty) (a : A) (b : B), rangeHigh (setRange o a b).2 = b)
    (hcount : ∀ (o : Obj Ty) (a : A) (b : B), (setRange o a b).2 count = o count)
    (T : Unit → Obj Ty) (c : Ty count) (a : A) (b : B) (random : E.Random) (size : Nat) :
    ∃ result : Obj Ty,
      @buildDefault E F Ty _ (Ty count) [Tuple [A, B]] (fun _ => Holder.direct (T ()))
          (gen.set (Member.var count) (always c),
           gen.set (@Member.fnN F Ty Ret A B [] setRange) (always (a, b, ⟨⟩)), ⟨⟩)
          random size
        = some (Holder.direct result) ∧
      result count = c ∧ rangeLow result = a ∧ rangeHigh result = b := by
  refine ⟨_, call_wrap Ownership.Direct _ _ _, ?_, hlow _ _ _, hhigh _ _ _⟩
  exact (hcount _ _ _).trans (Function.update_same count c _)

/-- The witness of C8: the example class with `int count` and
`setRange(int low, int high)`, the values `5` and `(1, 10)`, on the concrete
engine. -/
theorem build_count_and_range_witness :
    ∃ result : Obj example_.Ty,
      @buildDefault example_.engine example_.Field example_.Ty _ Int [Tuple [Int, Int]]
          (fun _ => Holder.direct (example_.T ()))
          (gen.set (Member.var example_.Field.count) (always 5),
           gen.set
             (@Member.fnN example_.Field example_.Ty Unit Int Int [] example_.setRange)
             (always (1, 10, ⟨⟩)), ⟨⟩)
          7 3
        = some (Holder.direct result) ∧
      result example_.Field.count = 5 ∧
      result example_.Field.low = 1 ∧ result example_.Field.high = 10 :=
  build_count_and_range (E := example_.engine) example_.Field.count example_.setRange
    (fun o => o example_.Field.low) (fun o => o example_.Field.high)
    (fun _ _ _ => rfl) (fun _ _ _ => rfl) (fun _ _ _ => rfl) example_.T 5 1 10 7 3

/-- C9: for each of the three ownership forms the build mapper returns a
wrapper of the same form whose underlying object is the object it returns
for the direct value-group `(x, v1..vn)`.  On the free store, for a
`std::unique_ptr` and for a `std::shared_ptr` to the address `a` where `x`
lives, it returns the very pointer it was given (the same address: the
wrapper is not replaced), and the store afterwards differs from the store
before only at `a` (no object is added: nothing is duplicated), where the
object of the direct value-group now lives, for every holder of that address
to see; `deref` refers to the object at `a`, which is `x`, and takes and
returns no store. -/
theorem call_ownership_agnostic {v : Type} {vs : List Type}
    (lenses : TupleOf (Lens Ty) (v :: vs)) (values : Tuple (v :: vs)) (x : Obj Ty)
    (a : Nat) (store : Store (Obj Ty)) (hx : store a = some x) :
    (∀ form : Ownership,
      BuildMapper.call (BuildMapper.mk (MakeIndexSequence (v :: vs).length) lenses)
          (MakeIndexSequence_ne_nil vs.length)
          ((wrap form x, values) : Tuple (Holder (Obj Ty) :: v :: vs))
        = some (wrap form (composer lenses values x))) ∧
    BuildMapper.callOnStore (BuildMapper.mk (MakeIndexSequence (v :: vs).length) lenses)
        (MakeIndexSequence_ne_nil vs.length)
        ((Handle.direct x, values) : Tuple (Handle (Obj Ty) :: v :: vs)) store
      = some (Handle.direct (composer lenses values x), store) ∧
    BuildMapper.callOnStore (BuildMapper.mk (MakeIndexSequence (v :: vs).length) lenses)
        (MakeIndexSequence_ne_nil vs.length)
        ((Handle.unique_ptr (some a), values) : Tuple (Handle (Obj Ty) :: v :: vs)) store
      = some (Handle.unique_ptr (some a),
          Function.update store a (some (composer lenses values x))) ∧
    BuildMapper.callOnStore (BuildMapper.mk (MakeIndexSequence (v :: vs).length) lenses)
        (MakeIndexSequence_ne_nil vs.length)
        ((Handle.shared_ptr (some a), values) : Tuple (Handle (Obj Ty) :: v :: vs)) store
      = some (Handle.shared_ptr (some a),
          Function.update store a (some (composer lenses values x))) ∧
    (∀ b : Nat, b ≠ a →
      Function.update store a (some (composer lenses values x)) b = store b) ∧
    Function.update store a (some (composer lenses values x)) a
      = some (composer lenses values x) ∧
    (Handle.deref (Handle.unique_ptr (some a) : Handle (Obj Ty))).bind
        (fun place => place.read (Handle.unique_ptr (some a)) store) = some x ∧
    (Handle.deref (Handle.shared_ptr (some a) : Handle (Obj Ty))).bind
        (fun place => place.read (Handle.shared_ptr (some a)) store) = some x ∧
    (Handle.deref (Handle.direct x)).bind
        (fun place => place.read (Handle.direct x) store) = some x :=
  ⟨fun form => call_wrap form lenses values x,
   foldlM_indexes_held lenses values x store,
   foldlM_indexes_stored (Handle.unique_ptr (some a)) a rfl lenses values x store hx,
   foldlM_indexes_stored (Handle.shared_ptr (some a)) a rfl lenses values x store hx,
   fun _ hb => Function.update_noteq hb _ store,
   Function.update_same a _ store, hx, hx, rfl⟩

/-- The witness of C9: the example store, where the default object lives at
address `3`, and the lenses on `count` and on `high`. -/
theorem call_ownership_agnostic_witness :
    BuildMapper.callOnStore
        (@BuildMapper.mk example_.Field example_.Ty [Int, Int] (MakeIndexSequence 2)
          (Lens.mk (Member.var example_.Field.count),
           Lens.mk (Member.var example_.Field.high), ⟨⟩))
        (MakeIndexSequence_ne_nil 1)
        ((Handle.shared_ptr (some 3), 5, 10, ⟨⟩) :
          Tuple [Handle (Obj example_.Ty), Int, Int])
        example_.store
      = some (Handle.shared_ptr (some 3),
          Function.update example_.store 3
            (some (Function.update
              (Function.update (example_.T ()) example_.Field.count 5)
              example_.Field.high 10))) :=
  (@call_ownership_agnostic example_.Field _ example_.Ty Int [Int]
    (Lens.mk (Member.var example_.Field.count),
     Lens.mk (Member.var example_.Field.high), ⟨⟩)
    (5, 10, ⟨⟩) (example_.T ()) 3 example_.store rfl).2.2.2.1

/-- The counterexample of C10: on an empty `std::unique_ptr` the dereference is
undefined, so is the build mapper with one lens, and `build<T>` without a
base generator reaches that value-group when `T()` is the empty pointer. -/
theorem call_empty_owner_undefined :
    deref (Holder.unique_ptr (none : Option (Obj example_.Ty))) = none ∧
    BuildMapper.call
        (@BuildMapper.mk example_.Field example_.Ty [Int] (MakeIndexSequence 1)
          (Lens.mk (Member.var example_.Field.count), ⟨⟩))
        (MakeIndexSequence_ne_nil 0)
        ((Holder.unique_ptr none, 5, ⟨⟩) : Tuple [Holder (Obj example_.Ty), Int])
      = none ∧
    @buildDefault example_.engine example_.Field example_.Ty _ Int []
        (fun _ => Holder.unique_ptr none)
        (gen.set (Member.var example_.Field.count) (always 5), ⟨⟩) 7 3
      = none :=
  ⟨rfl, rfl, rfl⟩

/-- A holder that holds an object is a wrapper, of one of the three forms,
over that object. -/
theorem exists_wrap_of_holdsObject {α : Type} (base : Holder α)
    (h : holdsObject base = true) : ∃ (form : Ownership) (x : α), base = wrap form x := by
  rcases base with x | p | p
  · exact ⟨Ownership.Direct, x, rfl⟩
  · cases p with
    | none => exact absurd h (by simp [holdsObject])
    | some x => exact ⟨Ownership.SoleOwner, x, rfl⟩
  · cases p with
    | none => exact absurd h (by simp [holdsObject])
    | some x => exact ⟨Ownership.SharedOwner, x, rfl⟩

/-- C10, amended: on every value-group whose base holds an object (the object
itself, or a sole-owner or shared-owner indirection that is not empty) the
dereference is defined and the build mapper returns an assembled object,
which holds an object again. -/
theorem call_total_on_held (base : Holder (Obj Ty)) (h : holdsObject base = true)
    {v : Type} {vs : List Type} (lenses : TupleOf (Lens Ty) (v :: vs))
    (values : Tuple (v :: vs)) :
    (deref base).isSome = true ∧
    ∃ result : Holder (Obj Ty),
      BuildMapper.call (BuildMapper.mk (MakeIndexSequence (v :: vs).length) lenses)
          (MakeIndexSequence_ne_nil vs.length)
          ((base, values) : Tuple (Holder (Obj Ty) :: v :: vs))
        = some result ∧
      holdsObject result = true := by
  obtain ⟨form, x, rfl⟩ := exists_wrap_of_holdsObject base h
  refine ⟨by rw [deref_wrap]; rfl, wrap form (composer lenses values x),
    call_wrap form lenses values x, ?_⟩
  cases form <;> rfl

/-- The witness of C10: a `std::shared_ptr` that owns the default object of the
example class, and one lens on `count`. -/
theorem call_total_on_held_witness :
    (deref (Holder.shared_ptr (some (example_.T ())))).isSome = true ∧
    ∃ result : Holder (Obj example_.Ty),
      BuildMapper.call
          (@BuildMapper.mk example_.Field example_.Ty [Int] (MakeIndexSequence 1)
            (Lens.mk (Member.var example_.Field.count), ⟨⟩))
          (MakeIndexSequence_ne_nil 0)
          ((Holder.shared_ptr (some (example_.T ())), 5, ⟨⟩) :
            Tuple [Holder (Obj example_.Ty), Int])
        = some result ∧
      holdsObject result = true :=
  @call_total_on_held example_.Field _ example_.Ty
    (Holder.shared_ptr (some (example_.T ()))) rfl Int []
    (Lens.mk (Member.var example_.Field.count), ⟨⟩) (5, ⟨⟩)

/-- C11: `construct<T>(gen_1..gen_n)` yields, in every sample,
`T(v_1,...,v_n)`, `v_i` being the value `gen_i` produced in that sample: for
no, one, two and three generators by the constructor call written out, for
every arity by a constructor that passes the argument list it received on,
which receives exactly the sampled tuple, whose component `i` is the sample
of `gen_i`. -/
theorem construct_positional {α : Type} :
    (∀ (T : α) (random : E.Random) (size : Nat),
      @construct E α [] T ⟨⟩ random size = T) ∧
    (∀ (A1 : Type) (T : A1 → α) (g1 : Gen E A1) (random : E.Random) (size : Nat),
      @construct E α [A1] T (g1, ⟨⟩) random size = T (g1 (E.source 0 random) size)) ∧
    (∀ (A1 A2 : Type) (T : A1 → A2 → α) (g1 : Gen E A1) (g2 : Gen E A2)
        (random : E.Random) (size : Nat),
      @construct E α [A1, A2] T (g1, g2, ⟨⟩) random size
        = T (g1 (E.source 0 random) size) (g2 (E.source 1 random) size)) ∧
    (∀ (A1 A2 A3 : Type) (T : A1 → A2 → A3 → α) (g1 : Gen E A1) (g2 : Gen E A2)
        (g3 : Gen E A3) (random : E.Random) (size : Nat),
      @construct E α [A1, A2, A3] T (g1, g2, g3, ⟨⟩) random size
        = T (g1 (E.source 0 random) size) (g2 (E.source 1 random) size)
            (g3 (E.source 2 random) size)) ∧
    (∀ (Args : List Type) (h : Tuple Args → α) (gens : TupleOf (Gen E) Args)
        (random : E.Random) (size : Nat),
      construct (Fn.ofTuple h) gens random size = h (tuple gens random size)) ∧
    (∀ (Args : List Type) (gens : TupleOf (Gen E) Args) (i : Fin Args.length)
        (random : E.Random) (size : Nat),
      TupleOf.get (tuple gens random size) i
        = TupleOf.get gens i (E.source i.val random) size) :=
  ⟨fun _ _ _ => rfl, fun _ _ _ _ _ => rfl, fun _ _ _ _ _ _ _ => rfl,
   fun _ _ _ _ _ _ _ _ _ => rfl,
   fun _ h gens random size => applyTuple_ofTuple h (tuple gens random size),
   fun _ gens i random size => tuple_get gens i random size⟩

/-- C12: in every sample, `makeUnique<T>(gens...)` yields a `std::unique_ptr`
that owns, and `makeShared<T>(gens...)` a `std::shared_ptr` that owns, the
value `construct<T>(gens...)` yields in the same sample; dereferencing either
refers to that value. -/
theorem makeUnique_makeShared_construct {α : Type} {Args : List Type} (T : Fn Args α)
    (gens : TupleOf (Gen E) Args) (random : E.Random) (size : Nat) :
    makeUnique T gens random size
      = Holder.unique_ptr (some (construct T gens random size)) ∧
    makeShared T gens random size
      = Holder.shared_ptr (some (construct T gens random size)) ∧
    (deref (makeUnique T gens random size)).map Ref.target
      = some (construct T gens random size) ∧
    (deref (makeShared T gens random size)).map Ref.target
      = some (construct T gens random size) := by
  have hu : makeUnique T gens random size
      = Holder.unique_ptr (some (construct T gens random size)) :=
    applyTuple_andThen _ (tuple gens random size) T
  have hs : makeShared T gens random size
      = Holder.shared_ptr (some (construct T gens random size)) :=
    applyTuple_andThen _ (tuple gens random size) T
  refine ⟨hu, hs, ?_, ?_⟩
  · rw [hu]; rfl
  · rw [hs]; rfl

/-- C13: for every non-empty list of argument types, `construct<T, A_1..A_n>()`
without generators is `construct<T>` on one default "arbitrary" generator
per listed constructor parameter, in the listed order: the generator at
position `i` is `arbitrary<A_i>()`. -/
theorem constructArbitrary_eq_construct {α : Type} (Arg : Type) (Args : List Type)
    (T : Fn (Arg :: Args) α) (arb : TupleOf (Arbitrary E) (Arg :: Args)) :
    constructArbitrary T arb = construct T (arbitraries arb) ∧
    (∀ i : Fin (Arg :: Args).length,
      TupleOf.get (arbitraries arb) i = (TupleOf.get arb i).arbitrary) ∧
    ∀ (random : E.Random) (size : Nat),
      constructArbitrary T arb random size
        = applyTuple (tuple (arbitraries arb) random size) T :=
  ⟨rfl,
   fun i => TupleOf.get_map (fun (t : Type) (a : Arbitrary E t) => a.arbitrary) arb i,
   fun _ _ => rfl⟩

/-- C15: the set of a field lens on `f` changes only `f`, every other field
keeping its value; and `build` with field bindings on the listed fields
returns an object that agrees with the sampled base object on every field
`g` that is not listed. -/
theorem build_field_frame (f : F) (fs : List F) (g : F) (hg : g ∉ f :: fs)
    (form : Ownership) (baseGen : Gen E (Obj Ty))
    (G : TupleOf (Gen E) ((f :: fs).map Ty)) (random : E.Random) (size : Nat) :
    (∀ (f : F) (obj : Obj Ty) (v : Ty f) (k : F), k ≠ f →
      Lens.set (Lens.mk (Member.var f)) obj v k = obj k) ∧
    ∃ result : Obj Ty,
      @build E F Ty _ (Ty f) (fs.map Ty) (map baseGen (wrap form))
          (fieldBindings (f :: fs) G) random size
        = some (wrap form result) ∧
      result g = baseGen (E.source 0 random) size g := by
  refine ⟨fun f obj v k hk => Function.update_noteq hk v obj, ?_⟩
  refine ⟨_, call_wrap form _ _ _, ?_⟩
  have hl := map_lens_fieldBindings (f :: fs) G
  exact (congrArg (fun l => composer l _ _ g) hl).trans
    (composer_fieldLenses_frame (f :: fs) g hg _ _)

/-- The witness of C15: field bindings on `count` and `low` of the example
class leave `high` as the base generator sampled it. -/
theorem build_field_frame_witness :
    (∀ (f : example_.Field) (obj : Obj example_.Ty) (v : example_.Ty f)
      (k : example_.Field), k ≠ f →
      Lens.set (Lens.mk (Member.var f)) obj v k = obj k) ∧
    ∃ result : Obj example_.Ty,
      @build example_.engine example_.Field example_.Ty _
          (example_.Ty example_.Field.count) ([example_.Field.low].map example_.Ty)
          (map (fun random size => example_.ctor 0 0 (example_.sourceGen random size))
            (wrap Ownership.Direct))
          (fieldBindings [example_.Field.count, example_.Field.low]
            (example_.sourceGen, always 2, ⟨⟩))
          7 3
        = some (wrap Ownership.Direct result) ∧
      result example_.Field.high
        = example_.ctor 0 0 (example_.sourceGen (example_.engine.source 0 7) 3)
            example_.Field.high :=
  build_field_frame example_.Field.count [example_.Field.low] example_.Field.high
    (by decide) Ownership.Direct
    (fun random size => example_.ctor 0 0 (example_.sourceGen random size))
    (example_.sourceGen, always 2, ⟨⟩) 7 3

/-- C16: the build mapper for the lenses `L1 ++ L2` on `(base, V1 ++ V2)` is
the build mapper for `L2` on `(r, V2)`, `r` being what the build mapper for
`L1` returns on `(base, V1)`; each of `L1` and `L2` has at least one lens, as
the call operator needs. -/
theorem call_append {v1 v2 : Type} {vs1 vs2 : List Type}
    (L1 : TupleOf (Lens Ty) (v1 :: vs1)) (L2 : TupleOf (Lens Ty) (v2 :: vs2))
    (V1 : Tuple (v1 :: vs1)) (V2 : Tuple (v2 :: vs2)) (base : Holder (Obj Ty)) :
    BuildMapper.call
        (BuildMapper.mk (MakeIndexSequence ((v1 :: vs1) ++ (v2 :: vs2)).length)
          (TupleOf.append L1 L2))
        (MakeIndexSequence_ne_nil (vs1 ++ (v2 :: vs2)).length)
        ((base, TupleOf.append V1 V2) :
          Tuple (Holder (Obj Ty) :: ((v1 :: vs1) ++ (v2 :: vs2))))
      = (BuildMapper.call (BuildMapper.mk (MakeIndexSequence (v1 :: vs1).length) L1)
          (MakeIndexSequence_ne_nil vs1.length)
          ((base, V1) : Tuple (Holder (Obj Ty) :: v1 :: vs1))).bind
          (fun r =>
            BuildMapper.call (BuildMapper.mk (MakeIndexSequence (v2 :: vs2).length) L2)
              (MakeIndexSequence_ne_nil vs2.length)
              ((r, V2) : Tuple (Holder (Obj Ty) :: v2 :: vs2))) := by
  rcases deref_eq_none_or_wrap base with h | ⟨form, x, rfl⟩
  · rw [call_eq_none L1 V1 base h]
    exact call_eq_none (TupleOf.append L1 L2) (TupleOf.append V1 V2) base h
  · rw [call_wrap form L1 V1 x]
    refine (call_wrap form (TupleOf.append L1 L2) (TupleOf.append V1 V2) x).trans ?_
    rw [composer_append]
    exact (call_wrap form L2 V2 _).symm

/-- C17: field bindings on two different fields commute: the build mapper
returns the same for the order `(f := v, g := w)` as for `(g := w, f := v)`,
on every base. -/
theorem call_distinct_fields_commute (f g : F) (hfg : f ≠ g) (base : Holder (Obj Ty))
    (v : Ty f) (w : Ty g) :
    BuildMapper.call
        (@BuildMapper.mk F Ty [Ty f, Ty g] (MakeIndexSequence 2)
          (Lens.mk (Member.var f), Lens.mk (Member.var g), ⟨⟩))
        (MakeIndexSequence_ne_nil 1)
        ((base, v, w, ⟨⟩) : Tuple [Holder (Obj Ty), Ty f, Ty g])
      = BuildMapper.call
          (@BuildMapper.mk F Ty [Ty g, Ty f] (MakeIndexSequence 2)
            (Lens.mk (Member.var g), Lens.mk (Member.var f), ⟨⟩))
          (MakeIndexSequence_ne_nil 1)
          ((base, w, v, ⟨⟩) : Tuple [Holder (Obj Ty), Ty g, Ty f]) := by
  rcases deref_eq_none_or_wrap base with h | ⟨form, x, rfl⟩
  · exact (call_eq_none _ _ base h).trans (call_eq_none _ _ base h).symm
  · refine (call_wrap form _ _ x).trans (Eq.trans ?_ (call_wrap form _ _ x).symm)
    exact congrArg (fun o => some (wrap form o)) (Function.update_comm hfg v w x)

/-- The witness of C17: the fields `count` and `high` of the example class, on
a base held by a `std::shared_ptr`. -/
theorem call_distinct_fields_commute_witness :
    BuildMapper.call
        (@BuildMapper.mk example_.Field example_.Ty [Int, Int] (MakeIndexSequence 2)
          (Lens.mk (Member.var example_.Field.count),
           Lens.mk (Member.var example_.Field.high), ⟨⟩))
        (MakeIndexSequence_ne_nil 1)
        ((Holder.shared_ptr (some (example_.T ())), 5, 10, ⟨⟩) :
          Tuple [Holder (Obj example_.Ty), Int, Int])
      = BuildMapper.call
          (@BuildMapper.mk example_.Field example_.Ty [Int, Int] (MakeIndexSequence 2)
            (Lens.mk (Member.var example_.Field.high),
             Lens.mk (Member.var example_.Field.count), ⟨⟩))
          (MakeIndexSequence_ne_nil 1)
          ((Holder.shared_ptr (some (example_.T ())), 10, 5, ⟨⟩) :
            Tuple [Holder (Obj example_.Ty), Int, Int]) :=
  @call_distinct_fields_commute example_.Field _ example_.Ty example_.Field.count
    example_.Field.high (by decide) (Holder.shared_ptr (some (example_.T ()))) 5 10

end claims

/-- C6: with zero bindings the index pack of the build mapper is empty, so
the call operator, which needs an index pack that is not empty, has no
instance: `build(g)` with zero bindings is not a program, and yields no
value to compare with the value of `g`. -/
theorem no_index_without_lenses {F : Type} {Ty : F → Type} (mapper : BuildMapper Ty []) :
    mapper.Indexes = [] :=
  match mapper.Indexes with
  | [] => rfl
  | i :: _ => i.elim0

end rc
